import Mathlib

/-!
Shallow embedding of `monitor.py` (FirstMover Reddit monitor).

Modelling conventions:
* Python strings are Lean `String`s; substring tests (`kw in s`) and
  per-character transforms (`s.lower()`) are carried out on `List Char`
  (ASCII-faithful: `Char.toLower`/`Char.isDigit` model `str.lower`/
  `str.isdigit` on the ASCII texts the program handles).
* Python floats (UNIX timestamps) are modelled as `ℚ`.
* The Python `set` is modelled as a `Finset String`; `list(seen)` exposes an
  UNSPECIFIED iteration order, modelled as an explicit enumeration argument.
* Network effects (Reddit fetches, the OpenAI call) are modelled as explicit
  inputs: the fetched records per subreddit, and the classifier reply as
  `Option String` (`none` = request raised / timed out, `some s` = the
  reply content string).
-/

namespace RedditMonitor

/-- `SUBREDDITS` constant of monitor.py. -/
def SUBREDDITS : List String :=
  ["NYCapartments", "movingtoNYC", "brooklyn", "astoria"]

/-- `MAX_AGE_MINUTES` constant of monitor.py (minutes). -/
def MAX_AGE_MINUTES : ℚ := 120

/-- `KEYWORDS` constant of monitor.py (positive keywords, in list order). -/
def KEYWORDS : List String :=
  ["streeteasy", "street easy",
   "apartment hunting", "apartment search", "apartment hunt",
   "new listing", "new listings",
   "notifications for", "get notified", "set up alerts",
   "be the first", "act fast", "move fast", "first to respond", "first to inquire",
   "how do i find apartments", "how to find apartments", "tips for finding",
   "looking for an apartment", "looking for a place to rent",
   "broker fee", "no fee apartment",
   "moving to nyc soon", "relocating to nyc", "moving to new york",
   "apartment tips", "rental search tips",
   "refreshing streeteasy", "checking streeteasy", "streeteasy notifications",
   "competitive rental", "competitive market",
   "beat other applicants", "getting outbid"]

/-- `SKIP_KEYWORDS` constant of monitor.py (negative keywords). -/
def SKIP_KEYWORDS : List String :=
  ["roommate", "room for rent", "looking for roommate", "sublease", "sublet"]

/-- Python `needle in hay` substring test on character lists. -/
def containsSub (needle hay : List Char) : Bool :=
  decide (needle <:+: hay)

/-- `response_text.replace(" ", "")`: remove every space character. -/
def stripSpaces (l : List Char) : List Char :=
  l.filter (fun c => c ≠ ' ')

/-- Auxiliary splitter: `splitCommaAux l cur` splits `l` at commas, with
`cur` the (reversed) current chunk; models Python `str.split(",")`. -/
def splitCommaAux : List Char → List Char → List (List Char)
  | [], cur => [cur.reverse]
  | c :: rest, cur =>
    if c = ',' then cur.reverse :: splitCommaAux rest []
    else splitCommaAux rest (c :: cur)

/-- Python `s.split(",")` on character lists. -/
def splitCommas (l : List Char) : List (List Char) :=
  splitCommaAux l []

/-- Python `str.strip()`: drop whitespace at both ends. -/
def trimChars (l : List Char) : List Char :=
  ((l.dropWhile Char.isWhitespace).reverse.dropWhile Char.isWhitespace).reverse

/-- Python `str.upper()` (ASCII). -/
def toUpperChars (l : List Char) : List Char :=
  l.map Char.toUpper

/-- Python `str.isdigit()` (ASCII): nonempty and all digits. -/
def isDigits (l : List Char) : Bool :=
  !l.isEmpty && l.all Char.isDigit

/-- Python `int(s)` on an all-digit string. -/
def digitsToNat (l : List Char) : ℕ :=
  l.foldl (fun n c => 10 * n + (c.toNat - 48)) 0

/-- Index parsing of `llm_filter` (monitor.py line 127):
`[int(x.strip()) for x in response_text.replace(" ", "").split(",") if x.strip().isdigit()]`. -/
def parseIndices (t : List Char) : List ℕ :=
  ((splitCommas (stripSpaces t)).map trimChars).filterMap
    (fun x => if isDigits x then some (digitsToNat x) else none)

/-- `llm_filter` of monitor.py (lines 56-137), with the network modelled
explicitly: `useLLM` is `USE_LLM_FILTER`, and `reply` is the outcome of the
OpenAI call — `none` when the request raises (service error, timeout), and
`some content` when it returns `content` as the message text.  The returned
selection depends only on the reply, so the prompt construction is not
modelled.  (With ASCII digits, `int(x)` on an `isdigit` token never raises,
so the inner `except` fallback of lines 131-133 is unreachable.) -/
def llm_filter {α : Type} (posts : List α) (useLLM : Bool) (reply : Option String) : List α :=
  if posts.isEmpty || !useLLM then posts
  else
    match reply with
    | none => posts
    | some content =>
      let response_text := trimChars content.toList
      if toUpperChars response_text = "NONE".toList then []
      else (parseIndices response_text).filterMap (fun i => posts[i]?)

/-- `save_seen` of monitor.py (lines 146-151): the persisted list is
`list(seen)[-5000:]`, i.e. the last 5000 elements of the set's iteration
order.  The argument here is that iteration-order list. -/
def save_seen {α : Type} (l : List α) : List α :=
  l.drop (l.length - 5000)

/-- `is_relevant` of monitor.py (lines 181-197): hard-reject on any negative
keyword, otherwise collect matched positive keywords in list order. -/
def is_relevant (text : String) : Bool × List String :=
  let text_lower := text.toList.map Char.toLower
  if SKIP_KEYWORDS.any (fun kw => containsSub kw.toList text_lower) then
    (false, [])
  else
    (true, KEYWORDS.foldl
      (fun acc kw => if containsSub kw.toList text_lower then acc ++ [kw] else acc) [])

/-- The `data` dict of a fetched post/comment, with the fields monitor.py
reads.  A missing field is modelled by its `dict.get` default (empty string,
`0`), matching lines 201-233. -/
structure RawData where
  id : String := ""
  created_utc : ℚ := 0
  subreddit : String := ""
  title : String := ""
  selftext : String := ""
  body : String := ""
  author : String := ""
  permalink : String := ""
  score : ℤ := 0
deriving DecidableEq

/-- The text assembled by `process_post` (lines 213-216). -/
def textOf (d : RawData) (ptype : String) : String :=
  if ptype = "post" then d.title ++ " " ++ d.selftext else d.body

/-- The result record built by `process_post` (lines 222-233). -/
structure Item where
  id : String
  type : String
  subreddit : String
  title : Option String
  text : List Char
  author : String
  url : String
  created_utc : ℚ
  matched_keywords : List String
  score : ℤ
deriving DecidableEq

/-- `process_post` of monitor.py (lines 199-233): recency filter (strict
`>` against `MAX_AGE_MINUTES`), then keyword filter, then record build.
`now` is `datetime.now(timezone.utc).timestamp()`. -/
def process_post (d : RawData) (ptype : String) (now : ℚ) : Option Item :=
  let age_minutes := (now - d.created_utc) / 60
  if age_minutes > MAX_AGE_MINUTES then none
  else
    let text := textOf d ptype
    let rk := is_relevant text
    if rk.1 then
      some { id := d.id, type := ptype, subreddit := d.subreddit,
             title := if ptype = "post" then some d.title else none,
             text := text.toList.take 500, author := d.author,
             url := "https://reddit.com" ++ d.permalink,
             created_utc := d.created_utc,
             matched_keywords := rk.2, score := d.score }
    else none

/-- Descending stable insertion: keeps earlier list elements in front of
later ones with equal `created_utc`, modelling Python's stable
`sort(key=..., reverse=True)` (line 276). -/
def insertDesc (x : Item) : List Item → List Item
  | [] => [x]
  | y :: ys => if x.created_utc ≤ y.created_utc then y :: insertDesc x ys else x :: y :: ys

/-- `relevant_posts.sort(key=lambda x: x.get("created_utc", 0), reverse=True)`. -/
def sortDesc (l : List Item) : List Item :=
  l.foldr insertDesc []

/-- The composite dedup key `f"{kind}_{id}"` of lines 247 and 261. -/
def fullKey (ptype id : String) : String :=
  ptype ++ "_" ++ id

/-- One iteration of a fetch loop of `main` (lines 245-255 / 259-269) for a
single record: `new_seen.add(full_id)` always happens; the record is run
through `process_post` (and possibly appended to `relevant_posts`) only when
`full_id` is not in the prior ledger.  The accumulator is
`(new_seen, relevant_posts)`. -/
def stepItem (seen : Finset String) (ptype : String) (now : ℚ)
    (ac : Finset String × List Item) (it : RawData) : Finset String × List Item :=
  let full_id := fullKey ptype it.id
  (insert full_id ac.1,
   if full_id ∈ seen then ac.2
   else
     match process_post it ptype now with
     | some res => ac.2 ++ [res]
     | none => ac.2)

/-- One fetch loop of `main` over all records of one subreddit and one kind. -/
def runList (seen : Finset String) (items : List RawData) (ptype : String) (now : ℚ)
    (acc : Finset String × List Item) : Finset String × List Item :=
  items.foldl (stepItem seen ptype now) acc

/-- The observable outcome of one run of `main`: the in-memory seen set
after `seen.update(new_seen)` (line 272), the ledger list persisted by
`save_seen` (line 273), and the final relevant list written to the output
file (lines 276-285). -/
structure RunResult where
  preSeen : Finset String
  persisted : List String
  output : List Item
deriving DecidableEq

/-- `main` of monitor.py (lines 235-300) with external effects as inputs:
`fp sub` / `fc sub` are the records fetched from subreddit `sub` (posts /
comments), `enum` is the iteration order `list(·)` of a set (unspecified by
Python; any enumeration), `useLLM` and `reply` parametrise the classifier
as in `llm_filter`, and `now` is the current UTC timestamp. -/
def mainRun (fp fc : String → List RawData) (seen : Finset String)
    (enum : Finset String → List String) (useLLM : Bool) (reply : Option String)
    (now : ℚ) : RunResult :=
  let folded := SUBREDDITS.foldl
    (fun ac sub => runList seen (fc sub) "comment" now (runList seen (fp sub) "post" now ac))
    (∅, [])
  let allSeen := seen ∪ folded.1
  let persisted := save_seen (enum allSeen)
  let sorted := sortDesc folded.2
  let final := if sorted.isEmpty then sorted else llm_filter sorted useLLM reply
  ⟨allSeen, persisted, final⟩

/-! ### Helper lemmas -/

/-- `containsSub` decides the infix relation. -/
theorem containsSub_iff (n h : List Char) : containsSub n h = true ↔ n <:+: h := by
  simp [containsSub]

/-- Membership in the output of `llm_filter` implies membership in its input,
in every branch. -/
theorem mem_of_mem_llm_filter {α : Type} {posts : List α} {u : Bool} {r : Option String}
    {x : α} (h : x ∈ llm_filter posts u r) : x ∈ posts := by
  simp only [llm_filter] at h
  split at h
  · exact h
  · cases r with
    | none => exact h
    | some content =>
      simp only at h
      split at h
      · simp at h
      · obtain ⟨i, _, hx⟩ := List.mem_filterMap.mp h
        exact List.getElem?_mem hx

/-- The persisted list of `save_seen` never has more than 5000 entries. -/
theorem save_seen_length_le {α : Type} (l : List α) : (save_seen l).length ≤ 5000 := by
  simp only [save_seen, List.length_drop]
  omega

/-! ### Claims -/

/-- C9: on a batch of 3 candidates, a classifier reply of "0,2" makes
`llm_filter` return exactly the items at indices 0 and 2 in that order; a
reply of "NONE" returns the empty sequence; and an out-of-range reply "5"
returns the empty sequence with the index silently ignored. -/
theorem llm_filter_selection_examples :
    llm_filter [(10 : ℕ), 20, 30] true (some "0,2") = [10, 30]
    ∧ llm_filter [(10 : ℕ), 20, 30] true (some "NONE") = []
    ∧ llm_filter [(10 : ℕ), 20, 30] true (some "5") = [] := by
  refine ⟨by decide, by decide, by decide⟩

/-- C1 counterexample: a reply that is neither the NONE sentinel nor a
comma-separated list of indices ("hello") does NOT make `llm_filter` return
the candidates unchanged — every token lacking a digit is dropped by the
`isdigit` guard, so the selection is empty. -/
theorem llm_filter_unparseable_not_identity :
    llm_filter [(0 : ℕ)] true (some "hello") = [] ∧ ([] : List ℕ) ≠ [0] := by
  refine ⟨by decide, by decide⟩

/-- C1 (amended): if the classification call fails (service error or
timeout, modelled as `reply = none`) or no classifier is configured,
`llm_filter` returns exactly the full candidate sequence unchanged. -/
theorem llm_filter_degrades_on_failure {α : Type} (posts : List α) (useLLM : Bool)
    (reply : Option String) (h : reply = none ∨ useLLM = false) :
    llm_filter posts useLLM reply = posts := by
  rcases h with h | h <;> subst h <;> simp only [llm_filter]
  · split
    · rfl
    · rfl
  · simp

/-- Witness for C1's amended theorem at a concrete failing call. -/
theorem llm_filter_degrades_on_failure_witness :
    llm_filter [(7 : ℕ)] true none = [7] :=
  llm_filter_degrades_on_failure [(7 : ℕ)] true none (Or.inl rfl)

/-- C2 counterexample: a reply of "1,0" on candidates `[1, 2]` returns
`[2, 1]`, which is not an order-preserving subsequence of the input. -/
theorem llm_filter_not_order_preserving :
    llm_filter [(1 : ℕ), 2] true (some "1,0") = [2, 1]
    ∧ ¬ (llm_filter [(1 : ℕ), 2] true (some "1,0")).Sublist [1, 2]
    ∧ llm_filter [(1 : ℕ), 2] true (some "0,0") = [1, 1] := by
  refine ⟨by decide, by decide, by decide⟩

/-- C2 (amended): every item returned by `llm_filter` occurs in its input;
but the reply controls order and multiplicity, so the output need not be a
duplicate-free order-preserving subsequence (see the counterexample). -/
theorem llm_filter_returns_members {α : Type} (posts : List α) (useLLM : Bool)
    (reply : Option String) (x : α) (h : x ∈ llm_filter posts useLLM reply) :
    x ∈ posts :=
  mem_of_mem_llm_filter h

/-- Witness for C2's amended theorem at a concrete selection. -/
theorem llm_filter_returns_members_witness :
    (10 : ℕ) ∈ [10, 20] :=
  llm_filter_returns_members [10, 20] true (some "0") 10 (by decide)

/-- C3 counterexample: with keys `0, 1, ..., 5000` inserted in that order
(so `5000` is the most recently inserted), the set's iteration order may be
`[5000, 0, 1, ..., 4999]` — a permutation of the inserted keys — and then
`save_seen` keeps `[0, ..., 4999]`: the most recently inserted key `5000`
is dropped and the oldest key `0` is retained, contradicting
"most-recently-inserted retained, oldest dropped first". -/
theorem save_seen_not_recency_ordered :
    (5000 :: List.range 5000).Perm (List.range 5000 ++ [5000])
    ∧ save_seen (5000 :: List.range 5000) = List.range 5000
    ∧ 5000 ∉ save_seen (5000 :: List.range 5000)
    ∧ 0 ∈ save_seen (5000 :: List.range 5000) := by
  have h2 : save_seen (5000 :: List.range 5000) = List.range 5000 := by
    simp [save_seen, List.length_range]
  refine ⟨(List.perm_append_singleton _ _).symm, h2, ?_, ?_⟩
  · rw [h2]
    simp
  · rw [h2]
    simp

/-- C3 (amended): `save_seen` keeps at most 5000 keys — the final segment
of the set's iteration order: the persisted list is a suffix of `list(seen)`
of length `min |seen| 5000`.  Which keys survive depends on that unspecified
iteration order, not on insertion recency. -/
theorem save_seen_suffix_cap (l : List String) :
    save_seen l <:+ l ∧ (save_seen l).length = min l.length 5000 := by
  constructor
  · exact List.drop_suffix _ _
  · simp only [save_seen, List.length_drop]
    omega

/-- A positional-append fold collects exactly the filtered elements, in
list order. -/
theorem foldl_append_filter {α : Type} (p : α → Bool) :
    ∀ (l acc : List α),
      l.foldl (fun a x => if p x then a ++ [x] else a) acc = acc ++ l.filter p
  | [], acc => by simp
  | x :: l, acc => by
    by_cases h : p x
    · simp [h, foldl_append_filter p l (acc ++ [x]), List.filter_cons]
    · simp [h, foldl_append_filter p l acc, List.filter_cons]

/-- C4: `process_post` rejects an item exactly when its age in minutes
strictly exceeds `MAX_AGE_MINUTES = 120`; at the boundary (age exactly 120
minutes) the item passes the recency filter and the outcome is decided by
the keyword filter; and an item with `created_utc` 0 (the default for a
missing field) is rejected whenever the current time is more than 120
minutes past the epoch. -/
theorem process_post_recency (d : RawData) (ptype : String) (now : ℚ) :
    ((now - d.created_utc) / 60 > 120 → process_post d ptype now = none)
    ∧ ((now - d.created_utc) / 60 ≤ 120 →
        (process_post d ptype now = none ↔ (is_relevant (textOf d ptype)).1 = false))
    ∧ (d.created_utc = 0 → now / 60 > 120 → process_post d ptype now = none) := by
  refine ⟨?_, ?_, ?_⟩
  · intro h
    simp only [process_post, MAX_AGE_MINUTES]
    rw [if_pos h]
  · intro h
    simp only [process_post, MAX_AGE_MINUTES]
    rw [if_neg (by exact fun hc => absurd h (not_le.mpr hc))]
    cases hrk : (is_relevant (textOf d ptype)).1 <;> simp [hrk]
  · intro h0 h
    simp only [process_post, MAX_AGE_MINUTES]
    rw [if_pos (by rw [h0, sub_zero]; exact h)]

/-- Witness for C4 at concrete inputs: an item with `created_utc = 0` is
rejected at `now = 10000` (10000/60 > 120), and an item exactly 120 minutes
old at `now = 7200` passes the recency filter (its fate is the keyword
gate's, which passes the empty text). -/
theorem process_post_recency_witness :
    process_post { created_utc := 0 } "post" 10000 = none
    ∧ (process_post { created_utc := 0 } "post" 7200 = none
        ↔ (is_relevant (textOf { created_utc := 0 } "post")).1 = false) := by
  constructor
  · exact (process_post_recency { created_utc := 0 } "post" 10000).2.2 rfl (by norm_num)
  · exact (process_post_recency { created_utc := 0 } "post" 7200).2.1
      (by show ((7200 : ℚ) - 0) / 60 ≤ 120; norm_num)

/-- C5: any text whose lower-cased form contains a configured negative
keyword as a substring is hard-rejected by `is_relevant` with an empty
matched list, regardless of positive keywords present. -/
theorem is_relevant_negative_reject (text : String)
    (h : ∃ kw ∈ SKIP_KEYWORDS, kw.toList <:+: text.toList.map Char.toLower) :
    is_relevant text = (false, []) := by
  obtain ⟨kw, hmem, hinf⟩ := h
  have hany : SKIP_KEYWORDS.any
      (fun kw => containsSub kw.toList (text.toList.map Char.toLower)) = true :=
    List.any_eq_true.mpr ⟨kw, hmem, (containsSub_iff _ _).mpr hinf⟩
  simp only [is_relevant]
  rw [if_pos hany]

/-- Witness for C5: the spec's own example text contains "roommate". -/
theorem is_relevant_negative_reject_witness :
    is_relevant "looking for a roommate who loves streeteasy" = (false, []) :=
  is_relevant_negative_reject _ (by decide)

/-- C6: a text free of negative keywords always passes the gate, and its
matched list holds exactly the configured positive keywords occurring as
substrings of the lower-cased text, in the order of the configured list
(the matched list is a sublist of `KEYWORDS`). -/
theorem is_relevant_positive_pass (text : String)
    (h : ∀ kw ∈ SKIP_KEYWORDS, ¬ kw.toList <:+: text.toList.map Char.toLower) :
    (is_relevant text).1 = true
    ∧ (∀ kw, kw ∈ (is_relevant text).2 ↔
        kw ∈ KEYWORDS ∧ kw.toList <:+: text.toList.map Char.toLower)
    ∧ (is_relevant text).2.Sublist KEYWORDS := by
  have hany : SKIP_KEYWORDS.any
      (fun kw => containsSub kw.toList (text.toList.map Char.toLower)) = false := by
    rw [← Bool.not_eq_true, List.any_eq_true]
    rintro ⟨kw, hmem, hc⟩
    exact h kw hmem ((containsSub_iff _ _).mp hc)
  have hval : is_relevant text =
      (true, KEYWORDS.filter
        (fun kw => containsSub kw.toList (text.toList.map Char.toLower))) := by
    simp only [is_relevant]
    rw [if_neg (by rw [hany]; simp), foldl_append_filter]
    simp
  refine ⟨by rw [hval], fun kw => ?_, by rw [hval]; exact List.filter_sublist _⟩
  rw [hval]
  simp only [List.mem_filter, containsSub_iff]

/-- Witness for C6: the spec's own example text matches "streeteasy",
"new listing", "new listings" and "checking streeteasy", and passes. -/
theorem is_relevant_positive_pass_witness :
    (is_relevant "checking streeteasy for new listings").1 = true
    ∧ "checking streeteasy" ∈ (is_relevant "checking streeteasy for new listings").2 := by
  have h : ∀ kw ∈ SKIP_KEYWORDS,
      ¬ kw.toList <:+: ("checking streeteasy for new listings").toList.map Char.toLower := by
    decide
  exact ⟨(is_relevant_positive_pass _ h).1,
    ((is_relevant_positive_pass _ h).2.1 "checking streeteasy").mpr ⟨by decide, by decide⟩⟩

/-- `stepItem` always records the composite key in `new_seen`. -/
theorem stepItem_fst (seen : Finset String) (ptype : String) (now : ℚ)
    (ac : Finset String × List Item) (it : RawData) :
    (stepItem seen ptype now ac it).1 = insert (fullKey ptype it.id) ac.1 := rfl

/-- `runList` only grows the `new_seen` accumulator. -/
theorem runList_fst_mono (seen : Finset String) (ptype : String) (now : ℚ) :
    ∀ (items : List RawData) (acc : Finset String × List Item),
      acc.1 ⊆ (runList seen items ptype now acc).1
  | [], _ => fun _ hx => hx
  | it :: rest, acc => fun x hx =>
    runList_fst_mono seen ptype now rest (stepItem seen ptype now acc it)
      (by rw [stepItem_fst]; exact Finset.mem_insert_of_mem hx)

/-- Every processed record's composite key lands in `new_seen`. -/
theorem runList_fst_mem (seen : Finset String) (ptype : String) (now : ℚ) :
    ∀ (items : List RawData) (acc : Finset String × List Item) (it : RawData),
      it ∈ items → fullKey ptype it.id ∈ (runList seen items ptype now acc).1
  | [], _, _, h => absurd h (List.not_mem_nil _)
  | a :: rest, acc, it, h => by
    rcases List.mem_cons.mp h with rfl | h'
    · exact runList_fst_mono seen ptype now rest (stepItem seen ptype now acc it)
        (by rw [stepItem_fst]; exact Finset.mem_insert_self _ _)
    · exact runList_fst_mem seen ptype now rest _ it h'

/-- A record accepted by `process_post` keeps its kind and id. -/
theorem process_post_type_id {d : RawData} {ptype : String} {now : ℚ} {o : Item}
    (h : process_post d ptype now = some o) : o.type = ptype ∧ o.id = d.id := by
  simp only [process_post] at h
  split at h
  · cases h
  · split at h
    · cases h
      exact ⟨rfl, rfl⟩
    · cases h

/-- Anything `stepItem` appends to `relevant_posts` has a key outside the
prior ledger. -/
theorem stepItem_snd (seen : Finset String) (ptype : String) (now : ℚ)
    (ac : Finset String × List Item) (it : RawData) :
    ∀ o ∈ (stepItem seen ptype now ac it).2, o ∈ ac.2 ∨ fullKey o.type o.id ∉ seen := by
  intro o ho
  simp only [stepItem] at ho
  split at ho
  · exact Or.inl ho
  · rename_i hseen
    split at ho
    · rename_i res hres
      rcases List.mem_append.mp ho with h1 | h2
      · exact Or.inl h1
      · obtain ⟨ht, hi⟩ := process_post_type_id hres
        rw [List.mem_singleton.mp h2, ht, hi]
        exact Or.inr hseen
    · exact Or.inl ho

/-- Anything `runList` appends to `relevant_posts` has a key outside the
prior ledger. -/
theorem runList_snd (seen : Finset String) (ptype : String) (now : ℚ) :
    ∀ (items : List RawData) (acc : Finset String × List Item),
      ∀ o ∈ (runList seen items ptype now acc).2,
        o ∈ acc.2 ∨ fullKey o.type o.id ∉ seen
  | [], _ => fun _ ho => Or.inl ho
  | it :: rest, acc => fun o ho => by
    rcases runList_snd seen ptype now rest (stepItem seen ptype now acc it) o ho with h | h
    · exact stepItem_snd seen ptype now acc it o h
    · exact Or.inr h

/-- `x ∈ insertDesc y l` iff `x = y` or `x ∈ l`. -/
theorem mem_insertDesc {x y : Item} : ∀ {l : List Item}, x ∈ insertDesc y l ↔ x = y ∨ x ∈ l
  | [] => by simp [insertDesc]
  | z :: zs => by
    simp only [insertDesc]
    split
    · rw [List.mem_cons, List.mem_cons, mem_insertDesc]
      tauto
    · rw [List.mem_cons, List.mem_cons]

/-- `sortDesc` does not change membership. -/
theorem mem_sortDesc {x : Item} : ∀ {l : List Item}, x ∈ sortDesc l ↔ x ∈ l
  | [] => Iff.rfl
  | y :: ys => by
    simp only [sortDesc, List.foldr_cons, List.mem_cons]
    rw [show List.foldr insertDesc [] ys = sortDesc ys from rfl] at *
    rw [mem_insertDesc, mem_sortDesc]

/-- The per-subreddit step of `main`'s fetch loop (posts then comments). -/
theorem foldSubs_fst_mono (fp fc : String → List RawData) (seen : Finset String) (now : ℚ) :
    ∀ (subs : List String) (acc : Finset String × List Item),
      acc.1 ⊆ (subs.foldl
        (fun ac sub => runList seen (fc sub) "comment" now (runList seen (fp sub) "post" now ac))
        acc).1
  | [], _ => fun _ hx => hx
  | sub :: rest, acc => fun _ hx =>
    foldSubs_fst_mono fp fc seen now rest _
      (runList_fst_mono seen "comment" now (fc sub) _
        (runList_fst_mono seen "post" now (fp sub) acc hx))

/-- Every fetched record of every processed subreddit gets its key into the
accumulated `new_seen`. -/
theorem foldSubs_fst_mem (fp fc : String → List RawData) (seen : Finset String) (now : ℚ) :
    ∀ (subs : List String) (acc : Finset String × List Item) (sub : String), sub ∈ subs →
      (∀ p ∈ fp sub, fullKey "post" p.id ∈ (subs.foldl
        (fun ac s => runList seen (fc s) "comment" now (runList seen (fp s) "post" now ac))
        acc).1)
      ∧ (∀ c ∈ fc sub, fullKey "comment" c.id ∈ (subs.foldl
        (fun ac s => runList seen (fc s) "comment" now (runList seen (fp s) "post" now ac))
        acc).1)
  | [], _, _, h => absurd h (List.not_mem_nil _)
  | s :: rest, acc, sub, h => by
    rcases List.mem_cons.mp h with rfl | h'
    · constructor
      · intro p hp
        exact foldSubs_fst_mono fp fc seen now rest _
          (runList_fst_mono seen "comment" now (fc sub) _
            (runList_fst_mem seen "post" now (fp sub) acc p hp))
      · intro c hc
        exact foldSubs_fst_mono fp fc seen now rest _
          (runList_fst_mem seen "comment" now (fc sub) _ c hc)
    · exact foldSubs_fst_mem fp fc seen now rest _ sub h'

/-- Every candidate accumulated across the subreddit loop has a key outside
the prior ledger. -/
theorem foldSubs_snd (fp fc : String → List RawData) (seen : Finset String) (now : ℚ) :
    ∀ (subs : List String) (acc : Finset String × List Item),
      ∀ o ∈ (subs.foldl
        (fun ac sub => runList seen (fc sub) "comment" now (runList seen (fp sub) "post" now ac))
        acc).2, o ∈ acc.2 ∨ fullKey o.type o.id ∉ seen
  | [], _ => fun _ ho => Or.inl ho
  | sub :: rest, acc => fun o ho => by
    rcases foldSubs_snd fp fc seen now rest _ o ho with h | h
    · rcases runList_snd seen "comment" now (fc sub) _ o h with h2 | h2
      · exact runList_snd seen "post" now (fp sub) acc o h2
      · exact Or.inr h2
    · exact Or.inr h

/-- C7: in every run, the composite key of every fetched item (post or
comment, from any monitored subreddit) is in the seen set handed to
`save_seen` for persisting — regardless of ledger membership, recency,
keyword outcome, or the refiner — and every item in the run's output has a
key that was NOT in the prior ledger: the membership check gates output
before any relevance filtering. -/
theorem mainRun_marks_all_checks_first (fp fc : String → List RawData)
    (seen : Finset String) (enum : Finset String → List String) (useLLM : Bool)
    (reply : Option String) (now : ℚ) :
    (∀ sub ∈ SUBREDDITS,
      (∀ p ∈ fp sub, fullKey "post" p.id ∈ (mainRun fp fc seen enum useLLM reply now).preSeen)
      ∧ (∀ c ∈ fc sub,
          fullKey "comment" c.id ∈ (mainRun fp fc seen enum useLLM reply now).preSeen))
    ∧ (∀ o ∈ (mainRun fp fc seen enum useLLM reply now).output,
        fullKey o.type o.id ∉ seen) := by
  constructor
  · intro sub hs
    have h := foldSubs_fst_mem fp fc seen now SUBREDDITS (∅, []) sub hs
    exact ⟨fun p hp => Finset.mem_union_right _ (h.1 p hp),
           fun c hc => Finset.mem_union_right _ (h.2 c hc)⟩
  · intro o ho
    have hsorted : o ∈ sortDesc (SUBREDDITS.foldl
        (fun ac sub => runList seen (fc sub) "comment" now (runList seen (fp sub) "post" now ac))
        (∅, [])).2 := by
      simp only [mainRun] at ho
      split at ho
      · exact ho
      · exact mem_of_mem_llm_filter ho
    rcases foldSubs_snd fp fc seen now SUBREDDITS (∅, []) o (mem_sortDesc.mp hsorted) with h | h
    · cases h
    · exact h

/-- Witness for C7: with one concrete post fetched from r/NYCapartments and
an empty prior ledger, its composite key is in the persisted seen set. -/
theorem mainRun_marks_all_checks_first_witness :
    fullKey "post" "abc" ∈
      (mainRun (fun _ => [{ id := "abc" }]) (fun _ => []) ∅ (fun _ => []) false none 0).preSeen :=
  ((mainRun_marks_all_checks_first (fun _ => [{ id := "abc" }]) (fun _ => []) ∅
      (fun _ => []) false none 0).1 "NYCapartments" (by simp [SUBREDDITS])).1
    { id := "abc" } (List.mem_singleton.mpr rfl)

/-- C8: after every run — any prior ledger, any fetched items, any iteration
order, any classifier behavior — the ledger list persisted by `save_seen`
has at most 5000 keys. -/
theorem mainRun_persisted_bounded (fp fc : String → List RawData) (seen : Finset String)
    (enum : Finset String → List String) (useLLM : Bool) (reply : Option String) (now : ℚ) :
    (mainRun fp fc seen enum useLLM reply now).persisted.length ≤ 5000 := by
  simp only [mainRun]
  exact save_seen_length_le _

/-- C10: the persisted ledger is computed and saved before the refinement
stage runs, so two runs from identical ledgers and identical fetched items
persist identical ledgers no matter how the classifier is configured,
whether its call fails, or what it replies. -/
theorem mainRun_ledger_independent_of_classifier (fp fc : String → List RawData)
    (seen : Finset String) (enum : Finset String → List String)
    (u₁ u₂ : Bool) (r₁ r₂ : Option String) (now : ℚ) :
    (mainRun fp fc seen enum u₁ r₁ now).persisted
      = (mainRun fp fc seen enum u₂ r₂ now).persisted := rfl

end RedditMonitor
